import Mathlib

/-!
A shallow embedding of `model.py`: geolocated agents, a lazily built global
grid of one-degree zones, coordinate-to-zone lookup by flat index arithmetic,
and per-zone statistics.

Degree coordinates are modelled as exact rationals; the radian and kilometre
geometry lives in `ℝ` with the genuine `π`.  The class-level mutable list
`Zone.ZONES` is modelled by explicit state passing: `find_zone_that_contains`
takes the current list and returns the (possibly freshly initialized) list
next to its result.  Python `int()` truncation, `range`, and list
subscripting (negative indices included, `IndexError` as `none`) are modelled
by `pyInt`, `pyRange` and `pyIndex`.
-/

namespace Model

/-- A geographic point held in degrees (`Position.__init__`). -/
structure Position where
  longitude_degrees : ℚ
  latitude_degrees : ℚ
deriving DecidableEq

/-- Radian longitude: `self.longitude_degrees * math.pi / 180`. -/
noncomputable def Position.longitude (p : Position) : ℝ :=
  (p.longitude_degrees : ℝ) * Real.pi / 180

/-- Radian latitude: `self.latitude_degrees * math.pi / 180`. -/
noncomputable def Position.latitude (p : Position) : ℝ :=
  (p.latitude_degrees : ℝ) * Real.pi / 180

/-- An agent: a position plus the named numeric attributes that the
statistics read (`Agent.__init__` stores whatever attributes ingestion
supplies; the two that the program averages are `agreeableness` and
`income`). -/
structure Agent where
  position : Position
  agreeableness : ℚ
  income : ℚ
deriving DecidableEq

/-- A rectangular cell of the grid: two corners and the list of inhabitants
(`Zone.__init__`). -/
structure Zone where
  corner1 : Position
  corner2 : Position
  inhabitants : List Agent
deriving DecidableEq

/-- Python `int(q)` applied to the exact value `q`: truncation toward zero. -/
def pyInt (q : ℚ) : ℤ :=
  if q < 0 then -⌊-q⌋ else ⌊q⌋

/-- Python `range(lo, hi, step)` for a positive `step`. -/
def pyRange (lo hi step : ℤ) : List ℤ :=
  (List.range ((hi - lo + step - 1) / step).toNat).map (fun (k : ℕ) => lo + step * (k : ℤ))

/-- Python list subscript `l[i]`: a negative index counts from the end; an
index outside `[-len(l), len(l))` raises `IndexError`, modelled as `none`. -/
def pyIndex {α : Type} (l : List α) (i : ℤ) : Option α :=
  let j : ℤ := if i < 0 then i + l.length else i
  if h : 0 ≤ j ∧ j < (l.length : ℤ) then some (l.get ⟨j.toNat, by omega⟩) else none

namespace Zone

/-- `Zone.EARTH_RADIUS_KILOMETERS = 6371`. -/
def EARTH_RADIUS_KILOMETERS : ℕ := 6371

/-- `Zone.MIN_LONGITUDE_DEGREES = -180`. -/
def MIN_LONGITUDE_DEGREES : ℤ := -180

/-- `Zone.MAX_LONGITUDE_DEGREES = 180`. -/
def MAX_LONGITUDE_DEGREES : ℤ := 180

/-- `Zone.MIN_LATITUDE_DEGREES = -90`. -/
def MIN_LATITUDE_DEGREES : ℤ := -90

/-- `Zone.MAX_LATITUDE_DEGREES = 90`. -/
def MAX_LATITUDE_DEGREES : ℤ := 90

/-- `Zone.WIDTH_DEGREE = 1`. -/
def WIDTH_DEGREE : ℤ := 1

/-- `Zone.HEIGHT_DEGREE = 1`. -/
def HEIGHT_DEGREE : ℤ := 1

/-- `Zone.contains`: the chained comparison
`max(lon1, lon2) > position.longitude_degrees >= min(lon1, lon2)` together
with the analogous chain for latitude, all in degrees. -/
def contains (z : Zone) (position : Position) : Bool :=
  decide (max z.corner1.longitude_degrees z.corner2.longitude_degrees >
        position.longitude_degrees ∧
      position.longitude_degrees ≥
        min z.corner1.longitude_degrees z.corner2.longitude_degrees ∧
      max z.corner1.latitude_degrees z.corner2.latitude_degrees >
        position.latitude_degrees ∧
      position.latitude_degrees ≥
        min z.corner1.latitude_degrees z.corner2.latitude_degrees)

/-- `Zone.add_inhabitant`: append to the inhabitant list. -/
def add_inhabitant (z : Zone) (inhabitant : Agent) : Zone :=
  { z with inhabitants := z.inhabitants ++ [inhabitant] }

/-- `Zone.population`: `len(self.inhabitants)`. -/
def population (z : Zone) : ℕ :=
  z.inhabitants.length

/-- `Zone.average_agreeableness`: `0` on an empty inhabitant list, otherwise
the sum of the inhabitants' `agreeableness` divided by the population. -/
def average_agreeableness (z : Zone) : ℚ :=
  if z.inhabitants = [] then 0
  else (z.inhabitants.map (fun inhabitant => inhabitant.agreeableness)).sum /
    (z.population : ℚ)

/-- `Zone.average_income`: `0` on an empty inhabitant list, otherwise the sum
of the inhabitants' `income` divided by the population. -/
def average_income (z : Zone) : ℚ :=
  if z.inhabitants = [] then 0
  else (z.inhabitants.map (fun inhabitant => inhabitant.income)).sum /
    (z.population : ℚ)

/-- `Zone.width`: `abs(corner2.longitude - corner1.longitude)` (radians)
times the Earth radius. -/
noncomputable def width (z : Zone) : ℝ :=
  |z.corner2.longitude - z.corner1.longitude| * (EARTH_RADIUS_KILOMETERS : ℝ)

/-- `Zone.height`: `abs(corner2.latitude - corner1.latitude)` (radians)
times the Earth radius. -/
noncomputable def height (z : Zone) : ℝ :=
  |z.corner2.latitude - z.corner1.latitude| * (EARTH_RADIUS_KILOMETERS : ℝ)

/-- `Zone.area`: `width * height`. -/
noncomputable def area (z : Zone) : ℝ :=
  z.width * z.height

open Classical in
/-- `Zone.population_density`: `population / area`, with the
`ZeroDivisionError` raised on a zero area caught, logged, and turned into no
returned value (Python falls through to an implicit `None`). -/
noncomputable def population_density (z : Zone) : Option ℝ :=
  if z.area = 0 then none else some ((z.population : ℝ) / z.area)

/-- `Zone._initialize_zones`: latitude bands outer, longitude cells inner,
one zone per cell from `(longitude, latitude)` to
`(longitude + WIDTH_DEGREE, latitude + HEIGHT_DEGREE)`, appended in loop
order to the initially empty class list. -/
def _initialize_zones : List Zone :=
  (pyRange MIN_LATITUDE_DEGREES MAX_LATITUDE_DEGREES HEIGHT_DEGREE).flatMap
    (fun (latitude : ℤ) =>
      (pyRange MIN_LONGITUDE_DEGREES MAX_LONGITUDE_DEGREES WIDTH_DEGREE).map
        (fun (longitude : ℤ) =>
          Zone.mk (Position.mk (longitude : ℚ) (latitude : ℚ))
            (Position.mk (↑(longitude + WIDTH_DEGREE) : ℚ)
              (↑(latitude + HEIGHT_DEGREE) : ℚ)) []))

end Zone

/-- Outcome of one call to `Zone.find_zone_that_contains`: a returned zone, a
failed `assert zone.contains(position)` recording the zone that the index
arithmetic picked, or an `IndexError` from the list subscript. -/
inductive FindResult where
  | ok (zone : Zone)
  | assertionError (zone : Zone)
  | indexError
deriving DecidableEq

namespace Zone

/-- `Zone.find_zone_that_contains`, with the class-level `ZONES` list passed
as explicit state: lazily build the grid when the list is empty, compute the
flat index, subscript, assert containment, and return the result together
with the (possibly updated) list. -/
def find_zone_that_contains (ZONES : List Zone) (position : Position) :
    FindResult × List Zone :=
  let zs := if ZONES.isEmpty then _initialize_zones else ZONES
  let longitude_index :=
    pyInt ((position.longitude_degrees - (MIN_LONGITUDE_DEGREES : ℚ)) /
      (WIDTH_DEGREE : ℚ))
  let latitude_index :=
    pyInt ((position.latitude_degrees - (MIN_LATITUDE_DEGREES : ℚ)) /
      (HEIGHT_DEGREE : ℚ))
  let longitude_bins :=
    pyInt (((MAX_LONGITUDE_DEGREES : ℚ) - (MIN_LONGITUDE_DEGREES : ℚ)) /
      (WIDTH_DEGREE : ℚ))
  let zone_index := longitude_bins * latitude_index + longitude_index
  match pyIndex zs zone_index with
  | none => (FindResult.indexError, zs)
  | some zone =>
      if zone.contains position then (FindResult.ok zone, zs)
      else (FindResult.assertionError zone, zs)

end Zone

/-- The grid cell in latitude band `i` and longitude slot `j`, exactly as the
initialization loop builds it. -/
def zoneAt (i j : ℕ) : Zone :=
  Zone.mk (Position.mk (-180 + (j : ℚ)) (-90 + (i : ℚ)))
    (Position.mk (-180 + (j : ℚ) + 1) (-90 + (i : ℚ) + 1)) []

lemma pyRange_one (lo hi : ℤ) :
    pyRange lo hi 1 = (List.range (hi - lo).toNat).map (fun (k : ℕ) => lo + (k : ℤ)) := by
  unfold pyRange
  norm_num

lemma length_pyRange_one (lo hi : ℤ) :
    (pyRange lo hi 1).length = (hi - lo).toNat := by
  rw [pyRange_one, List.length_map, List.length_range]

lemma getElem?_pyRange_one (lo hi : ℤ) (k : ℕ) (hk : k < (hi - lo).toNat) :
    (pyRange lo hi 1)[k]? = some (lo + (k : ℤ)) := by
  rw [pyRange_one, List.getElem?_map, List.getElem?_range hk]
  rfl

lemma getElem_pyRange_one (lo hi : ℤ) (k : ℕ) (hk : k < (pyRange lo hi 1).length) :
    (pyRange lo hi 1)[k] = lo + (k : ℤ) := by
  have hk' : k < (hi - lo).toNat := by
    rwa [length_pyRange_one] at hk
  have h1 := getElem?_pyRange_one lo hi k hk'
  rw [List.getElem?_eq_getElem hk] at h1
  exact Option.some.inj h1

lemma mem_pyRange_one {lo hi a : ℤ} :
    a ∈ pyRange lo hi 1 ↔ ∃ k : ℕ, k < (hi - lo).toNat ∧ a = lo + (k : ℤ) := by
  rw [pyRange_one]
  simp only [List.mem_map, List.mem_range]
  constructor
  · rintro ⟨k, hk, h⟩
    exact ⟨k, hk, h.symm⟩
  · rintro ⟨k, hk, h⟩
    exact ⟨k, hk, h.symm⟩

lemma flatMap_map_getElem? {α β γ : Type} (A : List α) (B : List β) (f : α → List γ)
    (g : α → β → γ) (hf : ∀ a, f a = B.map (g a))
    (i j : ℕ) (hi : i < A.length) (hj : j < B.length) :
    (A.flatMap f)[B.length * i + j]? = some (g (A.get ⟨i, hi⟩) (B.get ⟨j, hj⟩)) := by
  induction A generalizing i with
  | nil => simp at hi
  | cons a A ih =>
    rw [List.flatMap_cons, hf a]
    cases i with
    | zero =>
      rw [List.getElem?_append_left (by simpa using hj)]
      simp [hj]
    | succ i =>
      have key : B.length * (i + 1) + j = (B.map (g a)).length + (B.length * i + j) := by
        simp [Nat.mul_succ]
        ring
      rw [key, List.getElem?_append_right (Nat.le_add_right _ _), Nat.add_sub_cancel_left]
      have hi' : i < A.length := Nat.lt_of_succ_lt_succ hi
      rw [ih i hi']
      simp

lemma initialize_zones_eq :
    Zone._initialize_zones =
      (pyRange (-90) 90 1).flatMap (fun (latitude : ℤ) =>
        (pyRange (-180) 180 1).map (fun (longitude : ℤ) =>
          Zone.mk (Position.mk (longitude : ℚ) (latitude : ℚ))
            (Position.mk (↑(longitude + 1) : ℚ) (↑(latitude + 1) : ℚ)) [])) := rfl

lemma initialize_zones_getElem? (i j : ℕ) (hi : i < 180) (hj : j < 360) :
    Zone._initialize_zones[360 * i + j]? = some (zoneAt i j) := by
  have hA : (pyRange (-90 : ℤ) 90 1).length = 180 := by
    rw [length_pyRange_one]
    rfl
  have hB : (pyRange (-180 : ℤ) 180 1).length = 360 := by
    rw [length_pyRange_one]
    rfl
  have hi' : i < (pyRange (-90 : ℤ) 90 1).length := by
    rw [hA]
    exact hi
  have hj' : j < (pyRange (-180 : ℤ) 180 1).length := by
    rw [hB]
    exact hj
  have h := flatMap_map_getElem? (pyRange (-90 : ℤ) 90 1) (pyRange (-180 : ℤ) 180 1)
    (fun (latitude : ℤ) =>
      (pyRange (-180) 180 1).map (fun (longitude : ℤ) =>
        Zone.mk (Position.mk (longitude : ℚ) (latitude : ℚ))
          (Position.mk (↑(longitude + 1) : ℚ) (↑(latitude + 1) : ℚ)) []))
    (fun (latitude longitude : ℤ) =>
      Zone.mk (Position.mk (longitude : ℚ) (latitude : ℚ))
        (Position.mk (↑(longitude + 1) : ℚ) (↑(latitude + 1) : ℚ)) [])
    (fun a => rfl) i j hi' hj'
  have e1 : (pyRange (-90 : ℤ) 90 1).get ⟨i, hi'⟩ = -90 + (i : ℤ) := by
    rw [List.get_eq_getElem]
    exact getElem_pyRange_one _ _ _ hi'
  have e2 : (pyRange (-180 : ℤ) 180 1).get ⟨j, hj'⟩ = -180 + (j : ℤ) := by
    rw [List.get_eq_getElem]
    exact getElem_pyRange_one _ _ _ hj'
  rw [e1, e2] at h
  rw [hB] at h
  rw [initialize_zones_eq, h]
  simp only [zoneAt, Zone.mk.injEq, Position.mk.injEq, Option.some.injEq]
  push_cast
  refine ⟨⟨by ring, by ring⟩, ⟨by ring, by ring⟩, trivial⟩

lemma initialize_zones_length : Zone._initialize_zones.length = 64800 := by
  rw [initialize_zones_eq, List.length_flatMap]
  have hcongr :
      List.map
        (List.length ∘ fun (latitude : ℤ) =>
          (pyRange (-180) 180 1).map (fun (longitude : ℤ) =>
            Zone.mk (Position.mk (longitude : ℚ) (latitude : ℚ))
              (Position.mk (↑(longitude + 1) : ℚ) (↑(latitude + 1) : ℚ)) []))
        (pyRange (-90) 90 1) =
      List.map (fun _ => 360) (pyRange (-90) 90 1) := by
    refine List.map_congr_left (fun a _ => ?_)
    simp only [Function.comp, List.length_map]
    rw [length_pyRange_one]
    rfl
  rw [hcongr, List.map_const', List.sum_replicate, length_pyRange_one]
  rfl

lemma mem_initialize_zones {z : Zone} :
    z ∈ Zone._initialize_zones ↔ ∃ i j : ℕ, i < 180 ∧ j < 360 ∧ z = zoneAt i j := by
  constructor
  · intro hz
    rw [initialize_zones_eq, List.mem_flatMap] at hz
    obtain ⟨lat, hlat, hz⟩ := hz
    rw [List.mem_map] at hz
    obtain ⟨lon, hlon, rfl⟩ := hz
    rw [mem_pyRange_one] at hlat hlon
    obtain ⟨i, hi, rfl⟩ := hlat
    obtain ⟨j, hj, rfl⟩ := hlon
    refine ⟨i, j, by omega, by omega, ?_⟩
    simp only [zoneAt, Zone.mk.injEq, Position.mk.injEq]
    push_cast
    refine ⟨⟨by ring, by ring⟩, ⟨by ring, by ring⟩, trivial⟩
  · rintro ⟨i, j, hi, hj, rfl⟩
    exact List.getElem?_mem (initialize_zones_getElem? i j hi hj)

lemma contains_iff (z : Zone) (p : Position) :
    z.contains p = true ↔
      (min z.corner1.longitude_degrees z.corner2.longitude_degrees ≤ p.longitude_degrees ∧
       p.longitude_degrees < max z.corner1.longitude_degrees z.corner2.longitude_degrees ∧
       min z.corner1.latitude_degrees z.corner2.latitude_degrees ≤ p.latitude_degrees ∧
       p.latitude_degrees < max z.corner1.latitude_degrees z.corner2.latitude_degrees) := by
  unfold Zone.contains
  rw [decide_eq_true_iff]
  constructor
  · rintro ⟨h1, h2, h3, h4⟩
    exact ⟨h2, h1, h4, h3⟩
  · rintro ⟨h1, h2, h3, h4⟩
    exact ⟨h2, h1, h4, h3⟩

lemma zoneAt_contains_iff (i j : ℕ) (p : Position) :
    (zoneAt i j).contains p = true ↔
      (-180 + (j : ℚ) ≤ p.longitude_degrees ∧ p.longitude_degrees < -180 + (j : ℚ) + 1 ∧
       -90 + (i : ℚ) ≤ p.latitude_degrees ∧ p.latitude_degrees < -90 + (i : ℚ) + 1) := by
  rw [contains_iff]
  simp only [zoneAt]
  have e1 : min (-180 + (j : ℚ)) (-180 + (j : ℚ) + 1) = -180 + (j : ℚ) :=
    min_eq_left (by linarith)
  have e2 : max (-180 + (j : ℚ)) (-180 + (j : ℚ) + 1) = -180 + (j : ℚ) + 1 :=
    max_eq_right (by linarith)
  have e3 : min (-90 + (i : ℚ)) (-90 + (i : ℚ) + 1) = -90 + (i : ℚ) :=
    min_eq_left (by linarith)
  have e4 : max (-90 + (i : ℚ)) (-90 + (i : ℚ) + 1) = -90 + (i : ℚ) + 1 :=
    max_eq_right (by linarith)
  rw [e1, e2, e3, e4]

lemma grid_contains_in_range {z : Zone} (hz : z ∈ Zone._initialize_zones) {p : Position}
    (h : z.contains p = true) :
    -180 ≤ p.longitude_degrees ∧ p.longitude_degrees < 180 ∧
      -90 ≤ p.latitude_degrees ∧ p.latitude_degrees < 90 := by
  obtain ⟨i, j, hi, hj, rfl⟩ := mem_initialize_zones.1 hz
  rw [zoneAt_contains_iff] at h
  obtain ⟨h1, h2, h3, h4⟩ := h
  have hj' : (j : ℚ) ≤ 359 := by
    have : j ≤ 359 := by omega
    exact_mod_cast this
  have hi' : (i : ℚ) ≤ 179 := by
    have : i ≤ 179 := by omega
    exact_mod_cast this
  have hj0 : (0 : ℚ) ≤ (j : ℚ) := by positivity
  have hi0 : (0 : ℚ) ≤ (i : ℚ) := by positivity
  exact ⟨by linarith, by linarith, by linarith, by linarith⟩

lemma grid_contains_unique (p : Position) {z1 z2 : Zone}
    (hz1 : z1 ∈ Zone._initialize_zones) (hz2 : z2 ∈ Zone._initialize_zones)
    (hc1 : z1.contains p = true) (hc2 : z2.contains p = true) : z1 = z2 := by
  obtain ⟨i1, j1, hi1, hj1, rfl⟩ := mem_initialize_zones.1 hz1
  obtain ⟨i2, j2, hi2, hj2, rfl⟩ := mem_initialize_zones.1 hz2
  rw [zoneAt_contains_iff] at hc1 hc2
  obtain ⟨a1, b1, c1, d1⟩ := hc1
  obtain ⟨a2, b2, c2, d2⟩ := hc2
  have hj12 : j1 < j2 + 1 := by
    exact_mod_cast (by linarith : (j1 : ℚ) < (j2 : ℚ) + 1)
  have hj21 : j2 < j1 + 1 := by
    exact_mod_cast (by linarith : (j2 : ℚ) < (j1 : ℚ) + 1)
  have hi12 : i1 < i2 + 1 := by
    exact_mod_cast (by linarith : (i1 : ℚ) < (i2 : ℚ) + 1)
  have hi21 : i2 < i1 + 1 := by
    exact_mod_cast (by linarith : (i2 : ℚ) < (i1 : ℚ) + 1)
  obtain rfl : j1 = j2 := by omega
  obtain rfl : i1 = i2 := by omega
  rfl

lemma pyInt_of_nonneg {q : ℚ} (h : 0 ≤ q) : pyInt q = ⌊q⌋ := by
  unfold pyInt
  rw [if_neg (not_lt.mpr h)]

lemma pyIndex_nonneg {α : Type} (l : List α) (i : ℤ) (h0 : 0 ≤ i) :
    pyIndex l i = l[i.toNat]? := by
  unfold pyIndex
  dsimp only
  have hcond : (if i < 0 then i + (l.length : ℤ) else i) = i := if_neg (not_lt.mpr h0)
  simp only [hcond]
  by_cases h : i < (l.length : ℤ)
  · rw [dif_pos ⟨h0, h⟩, List.getElem?_eq_getElem (by omega)]
    rfl
  · rw [dif_neg (fun hc => h hc.2), eq_comm, List.getElem?_eq_none]
    omega

lemma find_eq (ZONES : List Zone) (p : Position) :
    Zone.find_zone_that_contains ZONES p =
      (let zs := if ZONES.isEmpty then Zone._initialize_zones else ZONES
       match pyIndex zs
           (360 * pyInt (p.latitude_degrees + 90) + pyInt (p.longitude_degrees + 180)) with
       | none => (FindResult.indexError, zs)
       | some zone =>
           if zone.contains p then (FindResult.ok zone, zs)
           else (FindResult.assertionError zone, zs)) := by
  unfold Zone.find_zone_that_contains
  have e1 : (p.longitude_degrees - (Zone.MIN_LONGITUDE_DEGREES : ℚ)) / (Zone.WIDTH_DEGREE : ℚ) =
      p.longitude_degrees + 180 := by
    norm_num [Zone.MIN_LONGITUDE_DEGREES, Zone.WIDTH_DEGREE]
  have e2 : (p.latitude_degrees - (Zone.MIN_LATITUDE_DEGREES : ℚ)) / (Zone.HEIGHT_DEGREE : ℚ) =
      p.latitude_degrees + 90 := by
    norm_num [Zone.MIN_LATITUDE_DEGREES, Zone.HEIGHT_DEGREE]
  have e3 : pyInt (((Zone.MAX_LONGITUDE_DEGREES : ℚ) - (Zone.MIN_LONGITUDE_DEGREES : ℚ)) /
      (Zone.WIDTH_DEGREE : ℚ)) = 360 := by
    have h36 : ((Zone.MAX_LONGITUDE_DEGREES : ℚ) - (Zone.MIN_LONGITUDE_DEGREES : ℚ)) /
        (Zone.WIDTH_DEGREE : ℚ) = ((360 : ℤ) : ℚ) := by
      norm_num [Zone.MAX_LONGITUDE_DEGREES, Zone.MIN_LONGITUDE_DEGREES, Zone.WIDTH_DEGREE]
    rw [h36, pyInt_of_nonneg (by norm_num), Int.floor_intCast]
  rw [e1, e2, e3]

lemma find_snd (ZONES : List Zone) (p : Position) :
    (Zone.find_zone_that_contains ZONES p).2 =
      if ZONES.isEmpty then Zone._initialize_zones else ZONES := by
  rw [find_eq]
  dsimp only
  split
  · rfl
  · split
    · rfl
    · rfl

lemma find_empty_in_range (p : Position)
    (h1 : -180 ≤ p.longitude_degrees) (h2 : p.longitude_degrees < 180)
    (h3 : -90 ≤ p.latitude_degrees) (h4 : p.latitude_degrees < 90) :
    (Zone.find_zone_that_contains [] p).1 =
      FindResult.ok
        (zoneAt (⌊p.latitude_degrees⌋ + 90).toNat (⌊p.longitude_degrees⌋ + 180).toNat) := by
  have hfJ0 : 0 ≤ ⌊p.longitude_degrees⌋ + 180 := by
    have := Int.le_floor.mpr (show ((-180 : ℤ) : ℚ) ≤ p.longitude_degrees by push_cast; linarith)
    omega
  have hfJ1 : ⌊p.longitude_degrees⌋ + 180 < 360 := by
    have := Int.floor_lt.mpr (show p.longitude_degrees < ((180 : ℤ) : ℚ) by push_cast; linarith)
    omega
  have hfI0 : 0 ≤ ⌊p.latitude_degrees⌋ + 90 := by
    have := Int.le_floor.mpr (show ((-90 : ℤ) : ℚ) ≤ p.latitude_degrees by push_cast; linarith)
    omega
  have hfI1 : ⌊p.latitude_degrees⌋ + 90 < 180 := by
    have := Int.floor_lt.mpr (show p.latitude_degrees < ((90 : ℤ) : ℚ) by push_cast; linarith)
    omega
  have hlat : pyInt (p.latitude_degrees + 90) = ⌊p.latitude_degrees⌋ + 90 := by
    rw [pyInt_of_nonneg (by linarith)]
    rw [show (90 : ℚ) = ((90 : ℤ) : ℚ) by norm_num, Int.floor_add_int]
  have hlon : pyInt (p.longitude_degrees + 180) = ⌊p.longitude_degrees⌋ + 180 := by
    rw [pyInt_of_nonneg (by linarith)]
    rw [show (180 : ℚ) = ((180 : ℤ) : ℚ) by norm_num, Int.floor_add_int]
  rw [find_eq]
  dsimp only
  rw [show ([] : List Zone).isEmpty = true from rfl, if_pos rfl, hlat, hlon]
  have hidx : pyIndex Zone._initialize_zones
      (360 * (⌊p.latitude_degrees⌋ + 90) + (⌊p.longitude_degrees⌋ + 180)) =
      some (zoneAt (⌊p.latitude_degrees⌋ + 90).toNat (⌊p.longitude_degrees⌋ + 180).toNat) := by
    rw [pyIndex_nonneg _ _ (by omega)]
    rw [show (360 * (⌊p.latitude_degrees⌋ + 90) + (⌊p.longitude_degrees⌋ + 180)).toNat =
        360 * (⌊p.latitude_degrees⌋ + 90).toNat + (⌊p.longitude_degrees⌋ + 180).toNat by omega]
    exact initialize_zones_getElem? _ _ (by omega) (by omega)
  rw [hidx]
  have hcont : (zoneAt (⌊p.latitude_degrees⌋ + 90).toNat
      (⌊p.longitude_degrees⌋ + 180).toNat).contains p = true := by
    rw [zoneAt_contains_iff]
    have cI : (((⌊p.latitude_degrees⌋ + 90).toNat : ℕ) : ℚ) = (⌊p.latitude_degrees⌋ : ℚ) + 90 := by
      have hc : (((⌊p.latitude_degrees⌋ + 90).toNat : ℤ) : ℚ) =
          ((⌊p.latitude_degrees⌋ + 90 : ℤ) : ℚ) :=
        congrArg _ (Int.toNat_of_nonneg hfI0)
      push_cast at hc
      linarith [hc]
    have cJ : (((⌊p.longitude_degrees⌋ + 180).toNat : ℕ) : ℚ) =
        (⌊p.longitude_degrees⌋ : ℚ) + 180 := by
      have hc : (((⌊p.longitude_degrees⌋ + 180).toNat : ℤ) : ℚ) =
          ((⌊p.longitude_degrees⌋ + 180 : ℤ) : ℚ) :=
        congrArg _ (Int.toNat_of_nonneg hfJ0)
      push_cast at hc
      linarith [hc]
    rw [cI, cJ]
    have fl1 := Int.floor_le p.longitude_degrees
    have fl2 := Int.lt_floor_add_one p.longitude_degrees
    have fl3 := Int.floor_le p.latitude_degrees
    have fl4 := Int.lt_floor_add_one p.latitude_degrees
    refine ⟨by linarith, by linarith, by linarith, by linarith⟩
  dsimp only
  rw [if_pos hcont]

lemma zoneAt_floor_contains (p : Position)
    (h1 : -180 ≤ p.longitude_degrees) (h2 : p.longitude_degrees < 180)
    (h3 : -90 ≤ p.latitude_degrees) (h4 : p.latitude_degrees < 90) :
    (zoneAt (⌊p.latitude_degrees⌋ + 90).toNat
      (⌊p.longitude_degrees⌋ + 180).toNat).contains p = true := by
  have hfJ0 : 0 ≤ ⌊p.longitude_degrees⌋ + 180 := by
    have := Int.le_floor.mpr (show ((-180 : ℤ) : ℚ) ≤ p.longitude_degrees by push_cast; linarith)
    omega
  have hfI0 : 0 ≤ ⌊p.latitude_degrees⌋ + 90 := by
    have := Int.le_floor.mpr (show ((-90 : ℤ) : ℚ) ≤ p.latitude_degrees by push_cast; linarith)
    omega
  rw [zoneAt_contains_iff]
  have cI : (((⌊p.latitude_degrees⌋ + 90).toNat : ℕ) : ℚ) = (⌊p.latitude_degrees⌋ : ℚ) + 90 := by
    have hc : (((⌊p.latitude_degrees⌋ + 90).toNat : ℤ) : ℚ) =
        ((⌊p.latitude_degrees⌋ + 90 : ℤ) : ℚ) :=
      congrArg _ (Int.toNat_of_nonneg hfI0)
    push_cast at hc
    linarith [hc]
  have cJ : (((⌊p.longitude_degrees⌋ + 180).toNat : ℕ) : ℚ) =
      (⌊p.longitude_degrees⌋ : ℚ) + 180 := by
    have hc : (((⌊p.longitude_degrees⌋ + 180).toNat : ℤ) : ℚ) =
        ((⌊p.longitude_degrees⌋ + 180 : ℤ) : ℚ) :=
      congrArg _ (Int.toNat_of_nonneg hfJ0)
    push_cast at hc
    linarith [hc]
  rw [cI, cJ]
  have fl1 := Int.floor_le p.longitude_degrees
  have fl2 := Int.lt_floor_add_one p.longitude_degrees
  have fl3 := Int.floor_le p.latitude_degrees
  have fl4 := Int.lt_floor_add_one p.latitude_degrees
  exact ⟨by linarith, by linarith, by linarith, by linarith⟩

lemma zoneAt_floor_mem (p : Position)
    (h1 : -180 ≤ p.longitude_degrees) (h2 : p.longitude_degrees < 180)
    (h3 : -90 ≤ p.latitude_degrees) (h4 : p.latitude_degrees < 90) :
    zoneAt (⌊p.latitude_degrees⌋ + 90).toNat (⌊p.longitude_degrees⌋ + 180).toNat ∈
      Zone._initialize_zones := by
  have hfJ1 : ⌊p.longitude_degrees⌋ + 180 < 360 := by
    have := Int.floor_lt.mpr (show p.longitude_degrees < ((180 : ℤ) : ℚ) by push_cast; linarith)
    omega
  have hfI1 : ⌊p.latitude_degrees⌋ + 90 < 180 := by
    have := Int.floor_lt.mpr (show p.latitude_degrees < ((90 : ℤ) : ℚ) by push_cast; linarith)
    omega
  exact mem_initialize_zones.2
    ⟨(⌊p.latitude_degrees⌋ + 90).toNat, (⌊p.longitude_degrees⌋ + 180).toNat,
      by omega, by omega, rfl⟩

lemma pyIndex_mem {α : Type} {l : List α} {i : ℤ} {x : α} (h : pyIndex l i = some x) :
    x ∈ l := by
  unfold pyIndex at h
  dsimp only at h
  split at h
  · split at h
    · rw [← Option.some.inj h]
      exact List.get_mem _ _ _
    · exact Option.noConfusion h
  · split at h
    · rw [← Option.some.inj h]
      exact List.get_mem _ _ _
    · exact Option.noConfusion h

lemma width_eq (z : Zone) :
    z.width = |(z.corner2.longitude_degrees : ℝ) - (z.corner1.longitude_degrees : ℝ)| *
      (Real.pi / 180) * 6371 := by
  unfold Zone.width Position.longitude Zone.EARTH_RADIUS_KILOMETERS
  rw [show (z.corner2.longitude_degrees : ℝ) * Real.pi / 180 -
      (z.corner1.longitude_degrees : ℝ) * Real.pi / 180 =
      ((z.corner2.longitude_degrees : ℝ) - (z.corner1.longitude_degrees : ℝ)) *
        (Real.pi / 180) by ring]
  rw [abs_mul, abs_of_nonneg (by positivity : (0 : ℝ) ≤ Real.pi / 180)]
  norm_num

lemma height_eq (z : Zone) :
    z.height = |(z.corner2.latitude_degrees : ℝ) - (z.corner1.latitude_degrees : ℝ)| *
      (Real.pi / 180) * 6371 := by
  unfold Zone.height Position.latitude Zone.EARTH_RADIUS_KILOMETERS
  rw [show (z.corner2.latitude_degrees : ℝ) * Real.pi / 180 -
      (z.corner1.latitude_degrees : ℝ) * Real.pi / 180 =
      ((z.corner2.latitude_degrees : ℝ) - (z.corner1.latitude_degrees : ℝ)) *
        (Real.pi / 180) by ring]
  rw [abs_mul, abs_of_nonneg (by positivity : (0 : ℝ) ≤ Real.pi / 180)]
  norm_num

lemma initialize_zones_ne_nil : Zone._initialize_zones ≠ [] := by
  intro hnil
  have := initialize_zones_length
  rw [hnil] at this
  exact absurd this (by norm_num)

/-- A unit cell with no inhabitants, used as a sample zone. -/
def sample_zone_empty : Zone := Zone.mk (Position.mk 0 0) (Position.mk 1 1) []

/-- A sample agent with agreeableness `1/5` and income `8`. -/
def agent_x : Agent := Agent.mk (Position.mk 0 0) (1/5) 8

/-- A sample agent with agreeableness `2/5` and income `12`. -/
def agent_y : Agent := Agent.mk (Position.mk 0 0) (2/5) 12

/-- A unit cell holding the two sample agents. -/
def sample_zone_two : Zone := Zone.mk (Position.mk 0 0) (Position.mk 1 1) [agent_x, agent_y]

/-- A zone whose corners share a longitude, so its width and area are zero. -/
def zone_degenerate : Zone := Zone.mk (Position.mk 0 0) (Position.mk 0 5) []

/-- C2: `contains` holds exactly when the longitude lies in
`[min of corner longitudes, max of corner longitudes)` and the latitude lies
in `[min of corner latitudes, max of corner latitudes)`; in particular the
point with latitude exactly `1` is not in the `[0,1)` latitude band cell but
in the neighboring `[1,2)` band cell. -/
theorem contains_between_corners_iff :
    (∀ (z : Zone) (p : Position),
      z.contains p = true ↔
        (min z.corner1.longitude_degrees z.corner2.longitude_degrees ≤
            p.longitude_degrees ∧
          p.longitude_degrees <
            max z.corner1.longitude_degrees z.corner2.longitude_degrees ∧
          min z.corner1.latitude_degrees z.corner2.latitude_degrees ≤
            p.latitude_degrees ∧
          p.latitude_degrees <
            max z.corner1.latitude_degrees z.corner2.latitude_degrees)) ∧
    (zoneAt 90 180).contains (Position.mk 0 1) = false ∧
    (zoneAt 91 180).contains (Position.mk 0 1) = true := by
  refine ⟨contains_iff, ?_, ?_⟩
  · cases hb : (zoneAt 90 180).contains (Position.mk 0 1)
    · rfl
    · exfalso
      have hP := (zoneAt_contains_iff 90 180 (Position.mk 0 1)).1 hb
      norm_num at hP
  · rw [zoneAt_contains_iff]
    norm_num

/-- C3: on a zone with at least one inhabitant, `average_agreeableness` and
`average_income` are exactly the sum of the trait values divided by the
population; on a zone with no inhabitants both averages are `0`. -/
theorem average_trait_spec (z : Zone) :
    (z.inhabitants = [] → z.average_agreeableness = 0 ∧ z.average_income = 0) ∧
    (z.inhabitants ≠ [] →
      z.average_agreeableness =
        (z.inhabitants.map (fun inhabitant => inhabitant.agreeableness)).sum /
          (z.population : ℚ) ∧
      z.average_income =
        (z.inhabitants.map (fun inhabitant => inhabitant.income)).sum /
          (z.population : ℚ)) := by
  constructor
  · intro h
    unfold Zone.average_agreeableness Zone.average_income
    rw [if_pos h, if_pos h]
    exact ⟨rfl, rfl⟩
  · intro h
    unfold Zone.average_agreeableness Zone.average_income
    rw [if_neg h, if_neg h]
    exact ⟨rfl, rfl⟩

/-- Witness for C3: both branches of `average_trait_spec` at concrete
zones. -/
theorem average_trait_spec_witness :
    (sample_zone_empty.average_agreeableness = 0 ∧
      sample_zone_empty.average_income = 0) ∧
    (sample_zone_two.average_agreeableness =
        (sample_zone_two.inhabitants.map
          (fun inhabitant => inhabitant.agreeableness)).sum /
          (sample_zone_two.population : ℚ) ∧
      sample_zone_two.average_income =
        (sample_zone_two.inhabitants.map
          (fun inhabitant => inhabitant.income)).sum /
          (sample_zone_two.population : ℚ)) :=
  ⟨(average_trait_spec sample_zone_empty).1 rfl,
   (average_trait_spec sample_zone_two).2 (by decide)⟩

/-- C4: a zone with zero area has `population_density` equal to `none` (the
caught `ZeroDivisionError`: no numeric result, not a raised fault and not a
silent `0`); a zone with nonzero area has `population_density` equal to
`some` of population divided by area. -/
theorem population_density_spec (z : Zone) :
    (z.area = 0 → z.population_density = none) ∧
    (z.area ≠ 0 → z.population_density = some ((z.population : ℝ) / z.area)) := by
  constructor
  · intro h
    unfold Zone.population_density
    exact if_pos h
  · intro h
    unfold Zone.population_density
    exact if_neg h

/-- Witness for C4: the degenerate zero-area zone yields `none`, and a unit
zone yields its population over its area. -/
theorem population_density_spec_witness :
    zone_degenerate.population_density = none ∧
    sample_zone_empty.population_density =
      some ((sample_zone_empty.population : ℝ) / sample_zone_empty.area) := by
  constructor
  · refine (population_density_spec zone_degenerate).1 ?_
    rw [Zone.area, width_eq]
    norm_num [zone_degenerate]
  · refine (population_density_spec sample_zone_empty).2 ?_
    have hw : (0 : ℝ) < sample_zone_empty.width := by
      rw [width_eq]
      have hd : ((sample_zone_empty.corner2.longitude_degrees : ℝ)) -
          (sample_zone_empty.corner1.longitude_degrees : ℝ) = 1 := by
        norm_num [sample_zone_empty]
      rw [hd, abs_one]
      positivity
    have hh : (0 : ℝ) < sample_zone_empty.height := by
      rw [height_eq]
      have hd : ((sample_zone_empty.corner2.latitude_degrees : ℝ)) -
          (sample_zone_empty.corner1.latitude_degrees : ℝ) = 1 := by
        norm_num [sample_zone_empty]
      rw [hd, abs_one]
      positivity
    have ha : (0 : ℝ) < sample_zone_empty.area := by
      rw [Zone.area]
      exact mul_pos hw hh
    exact ha.ne'

/-- C9: `width` is the absolute degree difference of the corner longitudes
times `π/180` times the Earth radius `6371`; `height` is the analogous
formula over latitudes; `area` is `width * height`. -/
theorem width_height_area_formula (z : Zone) :
    z.width = |(z.corner2.longitude_degrees : ℝ) - (z.corner1.longitude_degrees : ℝ)| *
        (Real.pi / 180) * 6371 ∧
    z.height = |(z.corner2.latitude_degrees : ℝ) - (z.corner1.latitude_degrees : ℝ)| *
        (Real.pi / 180) * 6371 ∧
    z.area = z.width * z.height :=
  ⟨width_eq z, height_eq z, rfl⟩

/-- C1: for every coordinate with longitude in `[-180, 180)` and latitude in
`[-90, 90)`, `find_zone_that_contains` (called here on the empty initial
state) returns a zone, that zone contains the coordinate, and it is the only
zone of the resulting grid that contains it. -/
theorem grid_lookup_in_range (p : Position)
    (h1 : -180 ≤ p.longitude_degrees) (h2 : p.longitude_degrees < 180)
    (h3 : -90 ≤ p.latitude_degrees) (h4 : p.latitude_degrees < 90) :
    ∃ z : Zone, (Zone.find_zone_that_contains [] p).1 = FindResult.ok z ∧
      z.contains p = true ∧
      ∀ z' ∈ (Zone.find_zone_that_contains [] p).2,
        z'.contains p = true → z' = z := by
  refine ⟨zoneAt (⌊p.latitude_degrees⌋ + 90).toNat (⌊p.longitude_degrees⌋ + 180).toNat,
    find_empty_in_range p h1 h2 h3 h4, zoneAt_floor_contains p h1 h2 h3 h4, ?_⟩
  intro z' hz' hc'
  have hsnd : (Zone.find_zone_that_contains [] p).2 = Zone._initialize_zones := by
    rw [find_snd]
    rfl
  rw [hsnd] at hz'
  exact grid_contains_unique p hz' (zoneAt_floor_mem p h1 h2 h3 h4) hc'
    (zoneAt_floor_contains p h1 h2 h3 h4)

/-- Witness for C1 at the origin coordinate. -/
theorem grid_lookup_in_range_witness :
    ∃ z : Zone,
      (Zone.find_zone_that_contains [] (Position.mk 0 0)).1 = FindResult.ok z ∧
      z.contains (Position.mk 0 0) = true ∧
      ∀ z' ∈ (Zone.find_zone_that_contains [] (Position.mk 0 0)).2,
        z'.contains (Position.mk 0 0) = true → z' = z :=
  grid_lookup_in_range (Position.mk 0 0)
    (by norm_num) (by norm_num) (by norm_num) (by norm_num)

/-- C5: for a coordinate outside the declared range, the lookup (from the
empty initial state) either hits an `IndexError`, or the index arithmetic
silently picks a zone that does not contain the coordinate (the recorded
assertion failure); it never returns a zone. -/
theorem lookup_out_of_range_spec (p : Position)
    (h : p.longitude_degrees < -180 ∨ 180 ≤ p.longitude_degrees ∨
      p.latitude_degrees < -90 ∨ 90 ≤ p.latitude_degrees) :
    ((Zone.find_zone_that_contains [] p).1 = FindResult.indexError ∨
      (∃ z : Zone,
        (Zone.find_zone_that_contains [] p).1 = FindResult.assertionError z ∧
        z.contains p = false)) ∧
    ∀ z : Zone, (Zone.find_zone_that_contains [] p).1 ≠ FindResult.ok z := by
  rw [find_eq]
  dsimp only
  rw [show ([] : List Zone).isEmpty = true from rfl, if_pos rfl]
  cases hpi : pyIndex Zone._initialize_zones
      (360 * pyInt (p.latitude_degrees + 90) + pyInt (p.longitude_degrees + 180)) with
  | none =>
    constructor
    · left
      rfl
    · intro z hz
      exact FindResult.noConfusion hz
  | some zone =>
    have hmem : zone ∈ Zone._initialize_zones := pyIndex_mem hpi
    have hcf : zone.contains p = false := by
      cases hcc : zone.contains p
      · rfl
      · exfalso
        have hr := grid_contains_in_range hmem hcc
        rcases h with h | h | h | h
        · linarith [hr.1]
        · linarith [hr.2.1]
        · linarith [hr.2.2.1]
        · linarith [hr.2.2.2]
    dsimp only
    rw [if_neg (by rw [hcf]; exact Bool.false_ne_true)]
    constructor
    · right
      exact ⟨zone, rfl, hcf⟩
    · intro z hz
      exact FindResult.noConfusion hz

/-- Witness for C5 at a longitude far beyond the grid. -/
theorem lookup_out_of_range_spec_witness :
    ((Zone.find_zone_that_contains [] (Position.mk 200 0)).1 = FindResult.indexError ∨
      (∃ z : Zone,
        (Zone.find_zone_that_contains [] (Position.mk 200 0)).1 =
          FindResult.assertionError z ∧
        z.contains (Position.mk 200 0) = false)) ∧
    ∀ z : Zone,
      (Zone.find_zone_that_contains [] (Position.mk 200 0)).1 ≠ FindResult.ok z :=
  lookup_out_of_range_spec (Position.mk 200 0) (Or.inr (Or.inl (by norm_num)))

/-- C6: the lookup builds the grid exactly once: after a first call on the
empty state the zone list holds `(360 / 1) * (180 / 1) = 64800` zones, and a
further lookup leaves the list unchanged. -/
theorem lazy_init_once (p q : Position) :
    ((Zone.find_zone_that_contains [] p).2).length = 64800 ∧
    (Zone.find_zone_that_contains ((Zone.find_zone_that_contains [] p).2) q).2 =
      (Zone.find_zone_that_contains [] p).2 := by
  have hs : (Zone.find_zone_that_contains [] p).2 = Zone._initialize_zones := by
    rw [find_snd]
    rfl
  have hne : ¬(Zone._initialize_zones.isEmpty = true) := by
    rw [List.isEmpty_iff]
    exact initialize_zones_ne_nil
  constructor
  · rw [hs, initialize_zones_length]
  · rw [hs, find_snd, if_neg hne]

/-- C7: two distinct zones of the built grid never both contain a coordinate,
and every coordinate of the declared range is contained in a zone of the
grid. -/
theorem grid_partition :
    (∀ z1 ∈ Zone._initialize_zones, ∀ z2 ∈ Zone._initialize_zones, z1 ≠ z2 →
      ∀ p : Position, ¬(z1.contains p = true ∧ z2.contains p = true)) ∧
    (∀ p : Position, -180 ≤ p.longitude_degrees → p.longitude_degrees < 180 →
      -90 ≤ p.latitude_degrees → p.latitude_degrees < 90 →
      ∃ z ∈ Zone._initialize_zones, z.contains p = true) := by
  constructor
  · intro z1 hz1 z2 hz2 hne p hc
    exact hne (grid_contains_unique p hz1 hz2 hc.1 hc.2)
  · intro p h1 h2 h3 h4
    exact ⟨_, zoneAt_floor_mem p h1 h2 h3 h4, zoneAt_floor_contains p h1 h2 h3 h4⟩

/-- An agent at (2.5, 48.9) with agreeableness `1/5`. -/
def agent_paris1 : Agent := Agent.mk (Position.mk (5/2) (489/10)) (1/5) 0

/-- An agent at (2.5, 48.9) with agreeableness `2/5`. -/
def agent_paris2 : Agent := Agent.mk (Position.mk (5/2) (489/10)) (2/5) 0

/-- An agent at (2.5, 48.9) with agreeableness `3/5`. -/
def agent_paris3 : Agent := Agent.mk (Position.mk (5/2) (489/10)) (3/5) 0

/-- C8: the coordinate with longitude `2.5` and latitude `48.9` resolves to
the zone with corners `(2, 48)` and `(3, 49)`; adding three agents with
agreeableness `0.2`, `0.4`, `0.6` to that zone gives average agreeableness
`0.4` and population `3`. -/
theorem paris_scenario :
    ∃ z : Zone,
      (Zone.find_zone_that_contains [] (Position.mk (5/2) (489/10))).1 =
        FindResult.ok z ∧
      z.corner1 = Position.mk 2 48 ∧ z.corner2 = Position.mk 3 49 ∧
      (((z.add_inhabitant agent_paris1).add_inhabitant agent_paris2).add_inhabitant
        agent_paris3).average_agreeableness = 2/5 ∧
      (((z.add_inhabitant agent_paris1).add_inhabitant agent_paris2).add_inhabitant
        agent_paris3).population = 3 := by
  have hfind := find_empty_in_range (Position.mk (5/2) (489/10))
    (by norm_num) (by norm_num) (by norm_num) (by norm_num)
  have hlat : ⌊(Position.mk (5/2 : ℚ) (489/10 : ℚ)).latitude_degrees⌋ = 48 := by
    show ⌊(489/10 : ℚ)⌋ = 48
    rw [Int.floor_eq_iff]
    norm_num
  have hlon : ⌊(Position.mk (5/2 : ℚ) (489/10 : ℚ)).longitude_degrees⌋ = 2 := by
    show ⌊(5/2 : ℚ)⌋ = 2
    rw [Int.floor_eq_iff]
    norm_num
  rw [hlat, hlon] at hfind
  rw [show ((48 : ℤ) + 90).toNat = 138 from rfl,
    show ((2 : ℤ) + 180).toNat = 182 from rfl] at hfind
  have hzone : (((zoneAt 138 182).add_inhabitant agent_paris1).add_inhabitant
      agent_paris2).add_inhabitant agent_paris3 =
      Zone.mk (Position.mk (-180 + (182 : ℚ)) (-90 + (138 : ℚ)))
        (Position.mk (-180 + (182 : ℚ) + 1) (-90 + (138 : ℚ) + 1))
        [agent_paris1, agent_paris2, agent_paris3] := rfl
  refine ⟨zoneAt 138 182, hfind, ?_, ?_, ?_, ?_⟩
  · simp only [zoneAt, Position.mk.injEq]
    norm_num
  · simp only [zoneAt, Position.mk.injEq]
    norm_num
  · rw [hzone]
    unfold Zone.average_agreeableness
    rw [if_neg (by simp)]
    unfold Zone.population
    norm_num [agent_paris1, agent_paris2, agent_paris3]
  · rw [hzone]
    rfl

/-- C10: every zone built by the grid initialization has positive width,
height and area, so whatever inhabitant list it later carries, the
division-by-zero branch of `population_density` is unreachable and the
density is population divided by area. -/
theorem grid_zone_density_safe (z : Zone) (hz : z ∈ Zone._initialize_zones)
    (inhabitants : List Agent) :
    0 < z.width ∧ 0 < z.height ∧ 0 < z.area ∧
    (Zone.mk z.corner1 z.corner2 inhabitants).population_density =
      some ((inhabitants.length : ℝ) / z.area) := by
  obtain ⟨i, j, hi, hj, rfl⟩ := mem_initialize_zones.1 hz
  have hdlon : ((zoneAt i j).corner2.longitude_degrees : ℝ) -
      ((zoneAt i j).corner1.longitude_degrees : ℝ) = 1 := by
    simp only [zoneAt]
    push_cast
    ring
  have hdlat : ((zoneAt i j).corner2.latitude_degrees : ℝ) -
      ((zoneAt i j).corner1.latitude_degrees : ℝ) = 1 := by
    simp only [zoneAt]
    push_cast
    ring
  have hw : 0 < (zoneAt i j).width := by
    rw [width_eq, hdlon, abs_one]
    positivity
  have hh : 0 < (zoneAt i j).height := by
    rw [height_eq, hdlat, abs_one]
    positivity
  have ha : 0 < (zoneAt i j).area := by
    rw [Zone.area]
    exact mul_pos hw hh
  refine ⟨hw, hh, ha, ?_⟩
  have harea : (Zone.mk (zoneAt i j).corner1 (zoneAt i j).corner2 inhabitants).area =
      (zoneAt i j).area := rfl
  unfold Zone.population_density
  rw [if_neg (by rw [harea]; exact ha.ne')]
  rw [harea]
  rfl

/-- Witness for C10 at the south-west corner zone with an empty inhabitant
list. -/
theorem grid_zone_density_safe_witness :
    0 < (zoneAt 0 0).width ∧ 0 < (zoneAt 0 0).height ∧ 0 < (zoneAt 0 0).area ∧
    (Zone.mk (zoneAt 0 0).corner1 (zoneAt 0 0).corner2 []).population_density =
      some ((([] : List Agent).length : ℝ) / (zoneAt 0 0).area) :=
  grid_zone_density_safe (zoneAt 0 0)
    (mem_initialize_zones.2 ⟨0, 0, by norm_num, by norm_num, rfl⟩) []

end Model
